import Mathlib

/-
  Verification of the doorman voice-command repository.

  The definitions below are a shallow embedding of the Python source:
  `src/action.py` (action handlers) and `src/entity.py` (the YAML-backed
  entity store).  Python strings are modelled as Lean `String`/`List Char`,
  Python string operations (`in`, `replace`, `lower`, regexes) as
  executable Lean functions, `random.choice` as an explicit index
  parameter, and side effects (speaking, volume setting, password
  rotation, logging) as explicit event lists.  Fallible external calls
  are modelled with `Option`/`Except`.
-/

namespace Doorman

/-! ### Python string primitives -/

/-- Python `pat` being a prefix of `l` (character lists). -/
def listIsPre : List Char → List Char → Bool
  | [], _ => true
  | _ :: _, [] => false
  | p :: ps, x :: xs => p == x && listIsPre ps xs

/-- Python substring containment `pat in l` on character lists. -/
def pyIn (pat : List Char) (l : List Char) : Bool :=
  match l with
  | [] => listIsPre pat []
  | _ :: xs => listIsPre pat l || pyIn pat xs

/-- Python `str.lower` on one character (ASCII range, which is all the
source's keyword and password data uses). -/
def lowerChar (c : Char) : Char :=
  if 65 ≤ c.toNat ∧ c.toNat ≤ 90 then Char.ofNat (c.toNat + 32) else c

/-- Python `s.lower()` (ASCII range). -/
def pyLower (s : String) : String :=
  ⟨s.data.map lowerChar⟩

/-- Python `s.replace(pat, rep)`: scan left to right, replacing
non-overlapping occurrences of `pat`.  Structural recursion on a fuel
argument (one unit per scanned character) so that the definition
computes by reduction; `replaceList` below supplies enough fuel.
Empty `pat` is treated as no-op (the source only replaces the fixed
non-empty token `"$tenant"`). -/
def replaceListAux (pat rep : List Char) : Nat → List Char → List Char
  | _, [] => []
  | 0, l => l
  | fuel + 1, x :: xs =>
    if pat.isEmpty = false ∧ listIsPre pat (x :: xs) = true then
      rep ++ replaceListAux pat rep fuel (xs.drop (pat.length - 1))
    else
      x :: replaceListAux pat rep fuel xs

/-- Python `s.replace(pat, rep)` on character lists. -/
def replaceList (pat rep l : List Char) : List Char :=
  replaceListAux pat rep l.length l

/-- Python `s.replace(pat, rep)` on `String`. -/
def pyReplace (s pat rep : String) : String :=
  ⟨replaceList pat.data rep.data s.data⟩

/-- Python `s.startswith(p)` on `String`. -/
def startsWithStr (s p : String) : Bool :=
  listIsPre p.data s.data

/-- Python `int(s)` for a stripped string: an optional sign followed by at
least one digit (the only shapes the amixer volume query can produce). -/
def digitsToNat (l : List Char) : Nat :=
  l.foldl (fun n c => n * 10 + (c.toNat - 48)) 0

/-- Python `int(s)` returning `none` where Python raises `ValueError`. -/
def pyInt? (s : String) : Option Int :=
  match s.data with
  | [] => none
  | '-' :: rest =>
    if rest ≠ [] ∧ rest.all Char.isDigit then some (-(digitsToNat rest : Int)) else none
  | '+' :: rest =>
    if rest ≠ [] ∧ rest.all Char.isDigit then some ((digitsToNat rest : Int)) else none
  | l => if l.all Char.isDigit then some ((digitsToNat l : Int)) else none

/-! ### SpeakTime (src/action.py, `SpeakTime.to_str`) -/

/-- Hour word table `HRS_TEXT` of `SpeakTime.to_str`. -/
def HRS_TEXT : List String :=
  ["midnight", "one", "two", "three", "four", "five", "six",
   "seven", "eight", "nine", "ten", "eleven", "twelve"]

/-- Five-minute word table `MINS_TEXT` of `SpeakTime.to_str`. -/
def MINS_TEXT : List String :=
  ["five", "ten", "quarter", "twenty", "twenty-five", "half"]

/-- `SpeakTime.to_str` from src/action.py: the clock-phrase formatter
applied to the datetime's hour and minute fields. -/
def to_str (hour0 minute : Nat) : String :=
  let minute_rounded0 := (minute + 2) / 5
  let minute_is_inverted := minute_rounded0 > 6
  let minute_rounded := if minute_is_inverted then 12 - minute_rounded0 else minute_rounded0
  let hour1 := if minute_is_inverted then (hour0 + 1) % 24 else hour0
  let hour := if hour1 > 12 then hour1 - 12 else hour1
  if minute_rounded == 0 then
    if hour == 0 then "It is midnight."
    else "It is " ++ HRS_TEXT.getD hour "" ++ " o'clock."
  else if minute_is_inverted then
    "It is " ++ MINS_TEXT.getD (minute_rounded - 1) "" ++ " to " ++ HRS_TEXT.getD hour "" ++ "."
  else
    "It is " ++ MINS_TEXT.getD (minute_rounded - 1) "" ++ " past " ++ HRS_TEXT.getD hour "" ++ "."

/-- The claim's description of the time-phrase algorithm, written from the
spec's words (rounded increment `(minute + 2) // 5`; above 6 replace by 12
minus itself and advance the hour wrapping at 24; subtract 12 from hours
above 12; increment 0 gives midnight / o'clock; otherwise past / to with
the two word tables). -/
def claimTimePhrase (hour minute : Nat) : String :=
  let increment := (minute + 2) / 5
  if increment > 6 then
    claimPhraseCore (12 - increment) true ((hour + 1) % 24)
  else
    claimPhraseCore increment false hour
where
  /-- Render the phrase from the final increment, the to/past flag and the
  (possibly advanced) 24-hour value. -/
  claimPhraseCore (increment : Nat) (isTo : Bool) (hour24 : Nat) : String :=
    let hour12 := if hour24 > 12 then hour24 - 12 else hour24
    if increment = 0 then
      if hour12 = 0 then "It is midnight."
      else "It is " ++ HRS_TEXT.getD hour12 "" ++ " o'clock."
    else
      let minuteWord := MINS_TEXT.getD (increment - 1) ""
      let hourWord := HRS_TEXT.getD hour12 ""
      if isTo then "It is " ++ minuteWord ++ " to " ++ hourWord ++ "."
      else "It is " ++ minuteWord ++ " past " ++ hourWord ++ "."

/-- Twelve-hour value reached by `to_str` once minute 58 has advanced the
hour: advance wrapping at 24, then convert to 12-hour form (used by the
amended C6). -/
def advancedHour12 (hour : Nat) : Nat :=
  let hour1 := (hour + 1) % 24
  if hour1 > 12 then hour1 - 12 else hour1

/-! ### VolumeControl (src/action.py, `VolumeControl.run`) -/

/-- Observable effects of `VolumeControl.run`, in program order. -/
inductive VolEvent where
  | logInfo (text : String)
  | setVolume (level : Int)
  | say (text : String)
  | logException
deriving DecidableEq

/-- `VolumeControl.run` from src/action.py.  The `GET_VOLUME` query runs
before the `try` block; its failure (`queryResult = none`) therefore
escapes as `Except.error`.  Inside the `try`, the stripped output is
logged, parsed with `int(...)` (`pyInt?`; a `ValueError` is caught and
turned into the apology), the sum with the configured change is clamped
to `[0, 100]` and applied; `subprocess.call` of `SET_VOLUME` reports
failure only through its exit status and raises nothing. -/
def volumeControlRun (queryResult : Option String) (change : Int) :
    Except Unit (List VolEvent) :=
  match queryResult with
  | none => Except.error ()
  | some res =>
    match pyInt? res with
    | none =>
      Except.ok [VolEvent.logInfo ("volume: " ++ res),
        VolEvent.say "Sorry, I couldn't do that", VolEvent.logException]
    | some v =>
      let vol := max 0 (min 100 (v + change))
      Except.ok [VolEvent.logInfo ("volume: " ++ res), VolEvent.setVolume vol,
        VolEvent.say ("Volume at " ++ toString vol ++ " %.")]

/-! ### GainEntry (src/action.py, `GainEntry.run`) -/

/-- The observable effects of `GainEntry.run`, in order: speaking a
response via `say`, and triggering a password rotation
(`Password(self.tenant).new_word()`). -/
inductive GEvent where
  | say (text : String)
  | rotate
deriving DecidableEq

/-- `GainEntry.pass_responses`. -/
def pass_responses : List String :=
  ["hello, $tenant, have a wonderful day",
   "good day, $tenant, nice to see you",
   "howdy, $tenant!  another lovely day in the city"]

/-- `GainEntry.fail_responses`. -/
def fail_responses : List String :=
  ["sorry, i could not let you in",
   "authorization has been denied.  please try again",
   "please check your password, it didn't match",
   "try spelling it out slowly next time"]

/-- `GainEntry.token`. -/
def gainEntryToken : String := "$tenant"

/-- `GainEntry.run` from src/action.py, with the tenant's current password
and spoken name as parameters, `random.choice` over the response tables
modelled by the index parameters `i`, `j`, and the effects returned as an
ordered event list.  The password check is
`self.tenant.password in voice_command.lower()`. -/
def gainEntryRun (password name utterance : String) (i j : Nat) : List GEvent :=
  let passed := pyIn password.data (pyLower utterance).data
  let response :=
    if passed then
      "that is the correct password: " ++ password ++ ". " ++
        pass_responses.getD (i % pass_responses.length) ""
    else
      "i didn't recognize the password. " ++
        fail_responses.getD (j % fail_responses.length) ""
  let response := pyReplace response gainEntryToken name
  if passed then [GEvent.say response, GEvent.rotate] else [GEvent.say response]

/-- Case-insensitive containment as the claim words it: the password
appears (case-insensitively) anywhere in the utterance. -/
def ciContains (utterance password : String) : Bool :=
  pyIn (pyLower password).data (pyLower utterance).data

/-! ### PageUnit (src/action.py, `PageUnit.say_unit`) -/

/-- Python `re.findall(r'\d+', unit)[0]`: the first maximal digit run
anywhere in the string (`none` when the `[0]` raises `IndexError`). -/
def firstDigitRun (l : List Char) : Option (List Char) :=
  match l.dropWhile (fun c => !c.isDigit) with
  | [] => none
  | x :: xs => some ((x :: xs).takeWhile Char.isDigit)

/-- Python `re.match(r"([0-9]+)([a-z]+)", unit, re.I)`: a leading digit
run followed immediately by at least one ASCII letter. -/
def matchNumAlpha (l : List Char) : Option (List Char × List Char) :=
  let lead := l.takeWhile Char.isDigit
  if lead.isEmpty then none
  else
    let alpha := (l.drop lead.length).takeWhile Char.isAlpha
    if alpha.isEmpty then none else some (lead, alpha)

/-- `PageUnit.say_unit` from src/action.py: `val` is the first digit run,
`suf` the letter group of the anchored number-letters match (or empty),
`hun = int(val / 100)`, `rem = val - hun * 100`, formatted
`'%s %s %s' % (hun, rem, suf)`; any exception (the `[0]` on an empty
findall) returns the raw string. -/
def say_unit (unit : String) : String :=
  match firstDigitRun unit.data with
  | none => unit
  | some run =>
    let val := digitsToNat run
    let suf : List Char :=
      match matchNumAlpha unit.data with
      | some (_, sf) => sf
      | none => []
    let hun := val / 100
    let rem := val % 100
    toString hun ++ " " ++ toString rem ++ " " ++ String.mk suf

/-- The claim's description of `say_unit`, written from its words: the
leading digit run and the trailing alphabetic suffix of the string,
falling back to the raw string when parsing fails. -/
def say_unit_claim (unit : String) : String :=
  let lead := unit.data.takeWhile Char.isDigit
  if lead.isEmpty then unit
  else
    let suf := (unit.data.reverse.takeWhile Char.isAlpha).reverse
    let val := digitsToNat lead
    toString (val / 100) ++ " " ++ toString (val % 100) ++ " " ++ String.mk suf

/-- The amended claim's description of `say_unit`: the first digit run
appearing anywhere in the string; the suffix is the letter run
immediately after the leading digits when the string starts with digits
directly followed by letters, and empty otherwise; inputs with no digit
at all are returned unchanged. -/
def say_unit_fixed (unit : String) : String :=
  if (unit.data.filter Char.isDigit).isEmpty then unit
  else
    let run := (unit.data.dropWhile (fun c => !c.isDigit)).takeWhile Char.isDigit
    let lead := unit.data.takeWhile Char.isDigit
    let alpha := (unit.data.drop lead.length).takeWhile Char.isAlpha
    let suf := if lead.isEmpty ∨ alpha.isEmpty then [] else alpha
    let val := digitsToNat run
    toString (val / 100) ++ " " ++ toString (val % 100) ++ " " ++ String.mk suf

/-! ### Entity store (src/entity.py) -/

/-- A `message` field of a `paging_exception` record: the YAML value is
either a single string or a list of strings. -/
inductive MessageField where
  | scalar (s : String)
  | list (l : List String)
deriving DecidableEq

/-- A `paging_exception` sub-record. -/
structure PagingExceptionData where
  message : MessageField
deriving DecidableEq

/-- `PagingException.message`: wrap a non-list field into a
single-element list. -/
def pagingMessage (d : PagingExceptionData) : List String :=
  match d.message with
  | MessageField.scalar s => [s]
  | MessageField.list l => l

/-- A tenants-record of the entity document (the fields the source
accesses; `password_field = none` models an absent `password` key). -/
structure TenantData where
  synonyms : List String
  unit : String
  phone_no : Option String
  password_field : Option String
  paging_exception : Option PagingExceptionData
deriving DecidableEq

/-- A units-record of the entity document. -/
structure UnitData where
  synonyms : List String
  floor : Int
  paging_exception : Option PagingExceptionData
deriving DecidableEq

/-- `Tenant.default_password` from src/entity.py. -/
def default_password : String := "asdfqlwevnwaevnwlvjwekfnsedhsadhfwe"

/-- The `Tenant.password` property getter: the stored password when the
field is present and truthy, the unmatchable sentinel otherwise. -/
def tenantPassword (t : TenantData) : String :=
  match t.password_field with
  | some p => if p = "" then default_password else p
  | none => default_password

/-- `PageUnit.responses` class default. -/
def pageUnitDefaultResponses : List String :=
  ["please wait. paging unit $unit",
   "ok. paging unit $unit",
   "hang on while i page unit $unit",
   "you got it. paging unit $unit"]

/-- `PageUnit.__init__`: a paging exception's message list replaces the
default response templates. -/
def pageUnitResponses (u : UnitData) : List String :=
  match u.paging_exception with
  | some pe => pagingMessage pe
  | none => pageUnitDefaultResponses

/-- `PageTenant.responses` class default. -/
def pageTenantDefaultResponses : List String :=
  ["ok, paging $tenant",
   "ok, please stand by while i page $tenant",
   "sure, please wait while i page $tenant",
   "paging $tenant, please stand by",
   "ok, hang on while i page $tenant"]

/-- `PageTenant.__init__`: a paging exception's message list replaces the
default response templates. -/
def pageTenantResponses (t : TenantData) : List String :=
  match t.paging_exception with
  | some pe => pagingMessage pe
  | none => pageTenantDefaultResponses

/-- The entity document: the two top-level mappings. -/
structure EntDoc where
  units : List (String × UnitData)
  tenants : List (String × TenantData)

/-- The `Entities` object (`self.units`/`self.tenants` in memory) together
with the on-disk document `data_file`.  The YAML persistence format is out
of scope and modelled as the identity embedding of the document. -/
structure EntitiesState where
  mem : EntDoc
  file : EntDoc

/-- `Entities.import_data`: load the document from storage. -/
def import_data (st : EntitiesState) : EntitiesState :=
  { st with mem := st.file }

/-- `Entities.serialize_data`: dump the whole in-memory document to
storage. -/
def serialize_data (st : EntitiesState) : EntitiesState :=
  { st with file := st.mem }

/-- `Entities.synch_data`: serialize then re-import. -/
def synch_data (st : EntitiesState) : EntitiesState :=
  import_data (serialize_data st)

/-- Python dict lookup `tenants[tid]` (as an association list). -/
def lookupTenant (tid : String) : List (String × TenantData) → Option TenantData
  | [] => none
  | (k, t) :: rest => if k = tid then some t else lookupTenant tid rest

/-- Mutation of the tenant's record `self.data['password'] = value`. -/
def setTenantField (tid : String) (value : String) :
    List (String × TenantData) → List (String × TenantData)
  | [] => []
  | (k, t) :: rest =>
    if k = tid then (k, { t with password_field := some value }) :: rest
    else (k, t) :: setTenantField tid value rest

/-- The `Tenant.password` property setter: mutate the underlying record,
then `global_entities.synch_data()` re-writes the whole document. -/
def setPassword (st : EntitiesState) (tid : String) (value : String) : EntitiesState :=
  synch_data { st with mem := { st.mem with tenants := setTenantField tid value st.mem.tenants } }

/-- A concrete store used by witnesses. -/
def sampleStore : EntitiesState :=
  ⟨⟨[], [("Bryan", ⟨["Bryan"], "453", some "5551234", some "oldword", none⟩)]⟩, ⟨[], []⟩⟩

/-! ### Keyword dispatcher

Modelled from the spec: the dispatcher (`actionbase.Actor`) is imported by
src/action.py but its source file is not among the repository's files, so
it is modelled from §4.1 of the spec: `add_keyword(phrases, handler)`
appends registry entries in registration order; `handle(utterance)` scans
the registry in that order and, for the first entry where any of its
phrases is a case-insensitive substring of the utterance, invokes
`handler.run(utterance)` and stops; if no entry matches, no handler runs.
A registry entry is its list of keyword phrases; a handler is identified
by its entry's position. -/

/-- Modelled from the spec: one registry entry matches when any of its
phrases is a case-insensitive substring of the utterance. -/
def entryMatches (phrases : List String) (utterance : String) : Bool :=
  phrases.any (fun p => pyIn (pyLower p).data (pyLower utterance).data)

/-- Modelled from the spec: index of the first matching registry entry. -/
def handleIdx (registry : List (List String)) (utterance : String) : Option Nat :=
  match registry with
  | [] => none
  | e :: rest =>
    if entryMatches e utterance then some 0
    else (handleIdx rest utterance).map (· + 1)

/-- Modelled from the spec: `handle(utterance)` returns the invoked
handler (by registration position) and the argument passed to its
`run`, or `none` when no entry matches. -/
def handle (registry : List (List String)) (utterance : String) : Option (Nat × String) :=
  (handleIdx registry utterance).map (fun i => (i, utterance))

/-! ## Theorems -/

theorem listIsPre_append_self (a b : List Char) : listIsPre a (a ++ b) = true := by
  induction a with
  | nil => rfl
  | cons x xs ih => simp [listIsPre, ih]

theorem listIsPre_head (pat : List Char) (x : Char) (l : List Char)
    (hne : pat ≠ []) (h : listIsPre pat (x :: l) = true) : pat.head? = some x := by
  cases pat with
  | nil => exact absurd rfl hne
  | cons p ps =>
    simp only [listIsPre, Bool.and_eq_true, beq_iff_eq] at h
    simp [h.1]

theorem replaceListAux_append (pat rep : List Char) (c : Char)
    (hc : pat.head? = some c) (a b : List Char) (fuel : Nat) (ha : c ∉ a) :
    replaceListAux pat rep (a.length + fuel) (a ++ b) =
      a ++ replaceListAux pat rep fuel b := by
  induction a with
  | nil => simp
  | cons x xs ih =>
    have hxa : x ≠ c := fun h => ha (h ▸ List.mem_cons_self x xs)
    have hne : pat ≠ [] := by
      intro h
      rw [h] at hc
      exact Option.noConfusion hc
    have hnp : ¬ (pat.isEmpty = false ∧ listIsPre pat (x :: (xs ++ b)) = true) := by
      rintro ⟨_, hpre⟩
      have := listIsPre_head pat x (xs ++ b) hne hpre
      rw [hc] at this
      exact hxa (Option.some.inj this).symm
    have hlen : (x :: xs).length + fuel = (xs.length + fuel) + 1 := by
      simp only [List.length_cons]
      omega
    rw [List.cons_append, hlen, replaceListAux, if_neg hnp,
        ih (fun h => ha (List.mem_cons_of_mem x h)), List.cons_append]

/-- Replacement leaves untouched a leading segment that never mentions the
pattern's first character. -/
theorem replaceList_append_of_head_notin (pat rep : List Char) (c : Char)
    (hc : pat.head? = some c) (a b : List Char) (ha : c ∉ a) :
    replaceList pat rep (a ++ b) = a ++ replaceList pat rep b := by
  rw [replaceList, replaceList, List.length_append]
  exact replaceListAux_append pat rep c hc a b b.length ha

theorem string_data_append (a b : String) : (a ++ b).data = a.data ++ b.data := rfl

/-- Token replacement cannot touch a leading segment free of the token's
first character `$`. -/
theorem pyReplace_startsWith (s pre name : String) (t : List Char)
    (hs : s.data = pre.data ++ t) (hpre : '$' ∉ pre.data) :
    startsWithStr (pyReplace s gainEntryToken name) pre = true := by
  have hc : gainEntryToken.data.head? = some '$' := rfl
  show listIsPre pre.data (replaceList gainEntryToken.data name.data s.data) = true
  rw [hs, replaceList_append_of_head_notin _ _ '$' hc pre.data t hpre]
  exact listIsPre_append_self _ _

/-- C1, counterexample: with tenant password "A" and utterance "A", the
password does appear case-insensitively in the utterance, yet
`GainEntry.run` speaks a failure phrase and does not rotate — because the
source lowercases only the utterance, never the stored password
(`self.tenant.password in voice_command.lower()`). -/
theorem gainEntry_ci_cex :
    ciContains "A" "A" = true ∧
    GEvent.rotate ∉ gainEntryRun "A" "Bryan" "A" 0 0 ∧
    gainEntryRun "A" "Bryan" "A" 0 0 =
      [GEvent.say "i didn't recognize the password. sorry, i could not let you in"] := by
  decide

/-- C1, amended: `GainEntry.run` speaks a success phrase and triggers a
password rotation if and only if the tenant's stored password text appears
verbatim as a substring of the lowercased utterance (which coincides with
a case-insensitive check only when the stored password is lowercase); when
it does not, it speaks a failure phrase and does not rotate; and the
rotation event always comes after the speak event. -/
theorem gainEntry_run_correct (password name utterance : String) (i j : Nat) :
    (GEvent.rotate ∈ gainEntryRun password name utterance i j ↔
      pyIn password.data (pyLower utterance).data = true) ∧
    (pyIn password.data (pyLower utterance).data = true →
      ∃ r, gainEntryRun password name utterance i j = [GEvent.say r, GEvent.rotate] ∧
        startsWithStr r "that is the correct password: " = true) ∧
    (pyIn password.data (pyLower utterance).data = false →
      ∃ r, gainEntryRun password name utterance i j = [GEvent.say r] ∧
        startsWithStr r "i didn't recognize the password. " = true) := by
  cases h : pyIn password.data (pyLower utterance).data with
  | true =>
    refine ⟨by simp [gainEntryRun, h], fun _ => ?_, fun hf => nomatch hf⟩
    refine ⟨pyReplace ("that is the correct password: " ++ password ++ ". " ++
        pass_responses.getD (i % pass_responses.length) "") gainEntryToken name,
      by simp [gainEntryRun, h], ?_⟩
    exact pyReplace_startsWith _ _ _
      (password.data ++ (". ".data ++ (pass_responses.getD (i % pass_responses.length) "").data))
      (by simp [string_data_append, List.append_assoc]) (by decide)
  | false =>
    refine ⟨by simp [gainEntryRun, h], ?_, ?_⟩
    · intro ht
      exact nomatch ht
    intro _
    refine ⟨pyReplace ("i didn't recognize the password. " ++
        fail_responses.getD (j % fail_responses.length) "") gainEntryToken name,
      by simp [gainEntryRun, h], ?_⟩
    exact pyReplace_startsWith _ _ _
      ((fail_responses.getD (j % fail_responses.length) "").data)
      (by simp [string_data_append]) (by decide)

/-- C1, witness: on a concrete matching utterance the amended theorem
yields the success events. -/
theorem gainEntry_run_correct_witness :
    ∃ r, gainEntryRun "rosebud" "Bryan" "say ROSEBUD now" 1 0 =
        [GEvent.say r, GEvent.rotate] ∧
      startsWithStr r "that is the correct password: " = true :=
  (gainEntry_run_correct "rosebud" "Bryan" "say ROSEBUD now" 1 0).2.1 (by decide)

/-- C9: on a password match the spoken response begins with
"that is the correct password: " followed by the still-valid password in
cleartext, and only afterwards is the rotation triggered (the speak event
precedes the rotate event).  The password is assumed not to contain the
substitution token's character `$`. -/
theorem gainEntry_speaks_password_cleartext (password name utterance : String)
    (i j : Nat)
    (hmatch : pyIn password.data (pyLower utterance).data = true)
    (hdollar : '$' ∉ password.data) :
    ∃ r, gainEntryRun password name utterance i j = [GEvent.say r, GEvent.rotate] ∧
      startsWithStr r ("that is the correct password: " ++ password) = true := by
  refine ⟨pyReplace ("that is the correct password: " ++ password ++ ". " ++
      pass_responses.getD (i % pass_responses.length) "") gainEntryToken name,
    by simp [gainEntryRun, hmatch], ?_⟩
  refine pyReplace_startsWith _ ("that is the correct password: " ++ password) _
    (". ".data ++ (pass_responses.getD (i % pass_responses.length) "").data)
    (by simp [string_data_append, List.append_assoc]) ?_
  rw [string_data_append]
  intro hmem
  rcases List.mem_append.mp hmem with h1 | h2
  · exact absurd h1 (by decide)
  · exact hdollar h2

/-- C9, witness: concrete matching run speaking the password in clear. -/
theorem gainEntry_speaks_password_cleartext_witness :
    ∃ r, gainEntryRun "swordfish" "Bryan" "it is Swordfish" 0 2 =
        [GEvent.say r, GEvent.rotate] ∧
      startsWithStr r ("that is the correct password: " ++ "swordfish") = true :=
  gainEntry_speaks_password_cleartext "swordfish" "Bryan" "it is Swordfish" 0 2
    (by decide) (by decide)

set_option maxHeartbeats 2000000 in
/-- C5: over every hour in 0..23 and minute in 0..59, `to_str` computes
exactly the algorithm the claim describes (rounded increment
`(minute + 2) // 5`, inversion above 6 with hour advance wrapping at 24,
12-hour conversion, midnight / o'clock for increment 0, past / to via the
word tables), and in particular 4:00 gives "It is four o'clock.", 0:00
gives "It is midnight." and 16:47 gives "It is quarter to five.". -/
theorem to_str_claim_algorithm :
    (∀ h : Nat, h < 24 → ∀ m : Nat, m < 60 → to_str h m = claimTimePhrase h m) ∧
    to_str 4 0 = "It is four o'clock." ∧
    to_str 0 0 = "It is midnight." ∧
    to_str 16 47 = "It is quarter to five." :=
  ⟨by decide, by decide, by decide, by decide⟩

/-- C5, witness: the bounded quantifiers instantiated at 16:47. -/
theorem to_str_claim_algorithm_witness : to_str 16 47 = claimTimePhrase 16 47 :=
  to_str_claim_algorithm.1 16 (by decide) 47 (by decide)

/-- C6, counterexample: at hour 4, minute 58 `to_str` rounds up to the
next hour but produces the o'clock phrasing, not the "to" phrasing the
claim states (the rounded increment becomes 12 and is inverted to 0,
which takes the o'clock branch). -/
theorem to_str_minute58_cex :
    to_str 4 58 = "It is five o'clock." ∧
    pyIn " to ".data (to_str 4 58).data = false := by
  decide

/-- C6, amended: for every hour below 24, `to_str` at minute 58 rounds to
the next hour and produces the o'clock phrasing for the advanced hour
("It is midnight." when the advanced 12-hour value is 0), never the "to"
phrasing. -/
theorem to_str_minute58_oclock (hour : Nat) (hh : hour < 24) :
    to_str hour 58 =
      (if advancedHour12 hour = 0 then "It is midnight."
       else "It is " ++ HRS_TEXT.getD (advancedHour12 hour) "" ++ " o'clock.") ∧
    pyIn " to ".data (to_str hour 58).data = false := by
  revert hour
  decide

/-- C6, witness: the amended statement instantiated at hour 4. -/
theorem to_str_minute58_oclock_witness :
    to_str 4 58 =
      (if advancedHour12 4 = 0 then "It is midnight."
       else "It is " ++ HRS_TEXT.getD (advancedHour12 4) "" ++ " o'clock.") ∧
    pyIn " to ".data (to_str 4 58).data = false :=
  to_str_minute58_oclock 4 (by decide)

/-- C4, counterexample: a failure of the volume-query command itself is
not absorbed: `GET_VOLUME` runs via `subprocess.check_output` before the
`try` block, so its `CalledProcessError` propagates to the caller
uncaught, with no apology spoken. -/
theorem volumeControl_query_failure_propagates :
    volumeControlRun none 10 = Except.error () := rfl

/-- C4, amended: a parse failure of the queried volume is caught, logged
and converted into a spoken apology with nothing propagated; but a
failure of the volume-query command itself escapes `VolumeControl.run`
as an exception (the query runs before the `try` block), and the set
command reports failure only through its exit status. -/
theorem volumeControl_parse_failure_absorbed (res : String) (change : Int)
    (hparse : pyInt? res = none) :
    volumeControlRun (some res) change =
      Except.ok [VolEvent.logInfo ("volume: " ++ res),
        VolEvent.say "Sorry, I couldn't do that", VolEvent.logException] ∧
    (∀ c : Int, volumeControlRun none c = Except.error ()) :=
  ⟨by simp [volumeControlRun, hparse], fun _ => rfl⟩

/-- C4, witness: a concrete unparsable query output is absorbed into the
apology. -/
theorem volumeControl_parse_failure_absorbed_witness :
    volumeControlRun (some "no such control") 10 =
      Except.ok [VolEvent.logInfo ("volume: " ++ "no such control"),
        VolEvent.say "Sorry, I couldn't do that", VolEvent.logException] :=
  (volumeControl_parse_failure_absorbed "no such control" 10 (by decide)).1

/-- C7: with a successfully queried and parsed current volume `v` and
configured change `change`, `VolumeControl.run` sets the volume to
`max 0 (min 100 (v + change))` and speaks "Volume at `<new>` %."; in
particular 50 with +10 sets 60 and speaks "Volume at 60 %.", and 95 with
+10 clamps to 100. -/
theorem volumeControl_sets_clamped (res : String) (v change : Int)
    (hv : pyInt? res = some v) :
    volumeControlRun (some res) change =
      Except.ok [VolEvent.logInfo ("volume: " ++ res),
        VolEvent.setVolume (max 0 (min 100 (v + change))),
        VolEvent.say ("Volume at " ++ toString (max 0 (min 100 (v + change))) ++ " %.")] ∧
    volumeControlRun (some "50") 10 =
      Except.ok [VolEvent.logInfo "volume: 50", VolEvent.setVolume 60,
        VolEvent.say "Volume at 60 %."] ∧
    volumeControlRun (some "95") 10 =
      Except.ok [VolEvent.logInfo "volume: 95", VolEvent.setVolume 100,
        VolEvent.say "Volume at 100 %."] :=
  ⟨by simp [volumeControlRun, hv], by rfl, by rfl⟩

/-- C7, witness: the 50 plus 10 example through the quantified part. -/
theorem volumeControl_sets_clamped_witness :
    volumeControlRun (some "50") 10 =
      Except.ok [VolEvent.logInfo ("volume: " ++ "50"),
        VolEvent.setVolume (max 0 (min 100 ((50 : Int) + 10))),
        VolEvent.say ("Volume at " ++ toString (max 0 (min 100 ((50 : Int) + 10))) ++ " %.")] :=
  (volumeControl_sets_clamped "50" 50 10 (by decide)).1

/-- Pointwise agreement of `say_unit` with the amended description
`say_unit_fixed`. -/
theorem say_unit_eq_fixed (u : String) : say_unit u = say_unit_fixed u := by
  by_cases hd : u.data.dropWhile (fun c => !c.isDigit) = []
  · have hf : u.data.filter Char.isDigit = [] := by
      rw [List.filter_eq_nil_iff]
      intro a ha
      have h2 := List.dropWhile_eq_nil_iff.mp hd a ha
      simpa using h2
    simp [say_unit, say_unit_fixed, firstDigitRun, hd, hf]
  · obtain ⟨x, xs, hxs⟩ : ∃ x xs, u.data.dropWhile (fun c => !c.isDigit) = x :: xs := by
      cases h : u.data.dropWhile (fun c => !c.isDigit) with
      | nil => exact absurd h hd
      | cons a as => exact ⟨a, as, rfl⟩
    have hf : (u.data.filter Char.isDigit).isEmpty = false := by
      cases hfe : u.data.filter Char.isDigit with
      | nil =>
        exfalso
        apply hd
        rw [List.dropWhile_eq_nil_iff]
        intro a ha
        have h2 := List.filter_eq_nil_iff.mp hfe a ha
        simpa using h2
      | cons b bs => rfl
    by_cases hlead : (u.data.takeWhile Char.isDigit).isEmpty = true
    · simp [say_unit, say_unit_fixed, firstDigitRun, matchNumAlpha, hxs, hf, hlead]
    · by_cases halpha :
        ((u.data.drop (u.data.takeWhile Char.isDigit).length).takeWhile Char.isAlpha).isEmpty = true
      · simp [say_unit, say_unit_fixed, firstDigitRun, matchNumAlpha, hxs, hf, hlead, halpha]
      · simp [say_unit, say_unit_fixed, firstDigitRun, matchNumAlpha, hxs, hf, hlead, halpha]

/-- C8, counterexample: on "A12" the claim's algorithm (leading digit run,
trailing alphabetic suffix, raw string on parsing failure) returns "A12"
unchanged — there is no leading digit run — while `say_unit` uses the
first digit run found anywhere and returns "0 12 ". -/
theorem say_unit_claim_cex :
    say_unit "A12" = "0 12 " ∧
    say_unit_claim "A12" = "A12" ∧
    say_unit "A12" ≠ say_unit_claim "A12" := by
  decide

/-- C8, amended: `say_unit` extracts the first digit run appearing
anywhere in the address string, takes as suffix the letter run
immediately following the leading digits when the string starts with
digits directly followed by letters (and the empty suffix otherwise),
splits the number into hundreds and remainder, and formats
"`<hundreds>` `<remainder>` `<suffix>`"; "453A" yields exactly "4 53 A",
an input with no digits is returned unchanged, and on any parsing
failure the raw address string is returned unmodified. -/
theorem say_unit_spec :
    (∀ u : String, say_unit u = say_unit_fixed u) ∧
    say_unit "453A" = "4 53 A" ∧
    say_unit "12B5" = "0 12 B" ∧
    (∀ u : String, u.data.all (fun c => !c.isDigit) = true → say_unit u = u) := by
  refine ⟨say_unit_eq_fixed, by decide, by decide, ?_⟩
  intro u hall
  have hd : u.data.dropWhile (fun c => !c.isDigit) = [] := by
    rw [List.dropWhile_eq_nil_iff]
    exact List.all_eq_true.mp hall
  simp [say_unit, firstDigitRun, hd]

/-- C8, witness: a digit-free address is returned unchanged. -/
theorem say_unit_spec_witness : say_unit "lobby" = "lobby" :=
  say_unit_spec.2.2.2 "lobby" (by decide)

/-- Looking a tenant up after the password-field update. -/
theorem lookup_setTenantField (tid value : String) (l : List (String × TenantData)) :
    lookupTenant tid (setTenantField tid value l) =
      (lookupTenant tid l).map (fun t => { t with password_field := some value }) := by
  induction l with
  | nil => rfl
  | cons p rest ih =>
    obtain ⟨k, t⟩ := p
    by_cases h : k = tid
    · simp [lookupTenant, setTenantField, h]
    · simp [lookupTenant, setTenantField, h, ih]

/-- C3: reading `password` from a record whose field is absent or empty
gives the fixed unmatchable sentinel and never the empty string; and the
setter mutates the record, re-saves the whole document to storage
(afterwards the storage document equals the in-memory one), and reading
the document back yields the newly set (non-empty) password for that
tenant. -/
theorem tenant_password_write_through :
    (∀ t : TenantData, t.password_field = none ∨ t.password_field = some "" →
      tenantPassword t = default_password ∧ tenantPassword t ≠ "") ∧
    (∀ (st : EntitiesState) (tid value : String) (t0 : TenantData),
      lookupTenant tid st.mem.tenants = some t0 → value ≠ "" →
      (setPassword st tid value).file = (setPassword st tid value).mem ∧
      ∃ t1, lookupTenant tid (setPassword st tid value).file.tenants = some t1 ∧
        t1.password_field = some value ∧ tenantPassword t1 = value) := by
  constructor
  · intro t ht
    have hp : tenantPassword t = default_password := by
      rcases ht with h | h <;> simp [tenantPassword, h]
    refine ⟨hp, ?_⟩
    rw [hp]
    decide
  · intro st tid value t0 h0 hval
    refine ⟨rfl, ⟨{ t0 with password_field := some value }, ?_, rfl, ?_⟩⟩
    · show lookupTenant tid (setTenantField tid value st.mem.tenants) = _
      rw [lookup_setTenantField, h0]
      rfl
    · simp [tenantPassword, hval]

/-- C3, witness: a concrete write to the sample store is immediately
visible in the re-saved document. -/
theorem tenant_password_write_through_witness :
    (setPassword sampleStore "Bryan" "newword").file =
      (setPassword sampleStore "Bryan" "newword").mem ∧
    ∃ t1, lookupTenant "Bryan" (setPassword sampleStore "Bryan" "newword").file.tenants =
        some t1 ∧
      t1.password_field = some "newword" ∧ tenantPassword t1 = "newword" :=
  tenant_password_write_through.2 sampleStore "Bryan" "newword"
    ⟨["Bryan"], "453", some "5551234", some "oldword", none⟩ (by decide) (by decide)

/-- C10: `PagingException.message` always returns a list of message
strings — a non-list field is wrapped into a single-element list — and
both `PageUnit` and `PageTenant` take their response templates from it
whenever a paging exception is present. -/
theorem pagingException_message_always_list :
    (∀ s : String, pagingMessage ⟨MessageField.scalar s⟩ = [s]) ∧
    (∀ l : List String, pagingMessage ⟨MessageField.list l⟩ = l) ∧
    (∀ (u : UnitData) (pe : PagingExceptionData), u.paging_exception = some pe →
      pageUnitResponses u = pagingMessage pe) ∧
    (∀ (t : TenantData) (pe : PagingExceptionData), t.paging_exception = some pe →
      pageTenantResponses t = pagingMessage pe) := by
  refine ⟨fun s => rfl, fun l => rfl, ?_, ?_⟩
  · intro u pe h
    simp [pageUnitResponses, h]
  · intro t pe h
    simp [pageTenantResponses, h]

/-- C10, witness: a unit with a scalar paging-exception message receives
the singleton list. -/
theorem pagingException_message_always_list_witness :
    pageUnitResponses ⟨["453"], 4, some ⟨MessageField.scalar "maintenance only"⟩⟩ =
      pagingMessage ⟨MessageField.scalar "maintenance only"⟩ :=
  pagingException_message_always_list.2.2.1 _ _ rfl

/-- No entry matching means no handler runs. -/
theorem handleIdx_none (registry : List (List String)) (utterance : String)
    (h : ∀ e ∈ registry, entryMatches e utterance = false) :
    handleIdx registry utterance = none := by
  induction registry with
  | nil => rfl
  | cons a rest ih =>
    have ha := h a (List.mem_cons_self a rest)
    simp [handleIdx, ha, ih (fun e he => h e (List.mem_cons_of_mem a he))]

/-- Some entry matching means the first matching entry is selected. -/
theorem handleIdx_some (registry : List (List String)) (utterance : String)
    (e : List String) (he : e ∈ registry) (hm : entryMatches e utterance = true) :
    ∃ i, handleIdx registry utterance = some i ∧ i < registry.length ∧
      entryMatches (registry.getD i []) utterance = true ∧
      ∀ j, j < i → entryMatches (registry.getD j []) utterance = false := by
  induction registry with
  | nil => exact absurd he (List.not_mem_nil e)
  | cons a rest ih =>
    by_cases ha : entryMatches a utterance = true
    · exact ⟨0, by simp [handleIdx, ha], by simp, by simpa using ha,
        fun j hj => absurd hj (Nat.not_lt_zero j)⟩
    · have ha' : entryMatches a utterance = false := by
        cases hb : entryMatches a utterance
        · rfl
        · exact absurd hb ha
      have herest : e ∈ rest := by
        rcases List.mem_cons.mp he with rfl | h
        · exact absurd hm ha
        · exact h
      obtain ⟨i, h1, h2, h3, h4⟩ := ih herest
      refine ⟨i + 1, ?_, ?_, ?_, ?_⟩
      · simp [handleIdx, ha, h1]
      · simpa [List.length_cons] using Nat.succ_lt_succ h2
      · simpa [List.getD_cons_succ] using h3
      · intro j hj
        cases j with
        | zero => simpa using ha'
        | succ j' => simpa [List.getD_cons_succ] using h4 j' (Nat.lt_of_succ_lt_succ hj)

/-- C2: for every registry and utterance, when some registered entry has a
phrase that is a case-insensitive substring of the utterance, `handle`
invokes exactly one handler — the first-registered matching entry — and
passes it the utterance; when no registered phrase matches, no handler
runs.  (The dispatcher is modelled from the spec, its source file not
being part of the repository's files.) -/
theorem handle_first_match (registry : List (List String)) (utterance : String) :
    ((∃ e ∈ registry, entryMatches e utterance = true) →
      ∃ i, handle registry utterance = some (i, utterance) ∧
        i < registry.length ∧
        entryMatches (registry.getD i []) utterance = true ∧
        ∀ j, j < i → entryMatches (registry.getD j []) utterance = false) ∧
    ((∀ e ∈ registry, entryMatches e utterance = false) →
      handle registry utterance = none) := by
  constructor
  · rintro ⟨e, he, hm⟩
    obtain ⟨i, h1, h2, h3, h4⟩ := handleIdx_some registry utterance e he hm
    exact ⟨i, by simp [handle, h1], h2, h3, h4⟩
  · intro hall
    simp [handle, handleIdx_none registry utterance hall]

/-- C2, witness: a concrete three-entry registry where the second entry
matches case-insensitively. -/
theorem handle_first_match_witness :
    ∃ i, handle [["volume up"], ["let me in", "knock knock"], ["time"]]
        "hey, LET ME IN please" = some (i, "hey, LET ME IN please") ∧
      i < ([["volume up"], ["let me in", "knock knock"], ["time"]] : List (List String)).length ∧
      entryMatches ([["volume up"], ["let me in", "knock knock"], ["time"]].getD i [])
        "hey, LET ME IN please" = true ∧
      ∀ j, j < i →
        entryMatches ([["volume up"], ["let me in", "knock knock"], ["time"]].getD j [])
          "hey, LET ME IN please" = false :=
  (handle_first_match _ _).1 ⟨["let me in", "knock knock"], by decide, by decide⟩

end Doorman
